import Mathlib

/-!
Verification development for the mdn-docs editor extension.

The definitions below are a shallow embedding of the repository's
TypeScript sources:

* `CacheStorageService` embeds `src/cache.ts` (two-tier cache with TTL and
  format-version stamping).  The in-memory `Map` and the on-disk file store
  are modelled as association lists; a disk record that fails to parse is a
  `DiskEntry.corrupt` value, and filesystem availability for writes is the
  `diskWriteOk` flag of the state.  A producer (`fetchFn`) is a resolved
  promise: `Except.ok v` when it fulfils with `v`, `Except.error ()` when it
  rejects.  Single-threaded execution is assumed throughout, so a call runs
  to completion with one value of `Date.now()` (`now`).
* `NodeManipulator` and `MdnDocsLoader` embed `src/node.ts` and `src/mdn.ts`
  (DOM extraction, sanitization, link rewriting).  The DOM tree produced by
  `DOMParser.parseFromString` is the input of the embedding (`XNode`,
  `HtmlDocument`): the parser itself is best-effort and total, so fetch
  results carry the parsed tree of the response body.
* `BrowserCompatDataLoader` embeds `src/browser.ts` (compatibility-data
  summarisation), with JavaScript truthiness (`||`, `!!`, `typeof v ===
  "string"`) made explicit.  A thrown `TypeError` is `Except.error ()`.
-/

namespace MdnDocs

/-- Association-list update with JS `Map.set` semantics: replace the value of
an existing key in place, otherwise append the new binding. -/
def setAssoc {β : Type} : List (String × β) → String → β → List (String × β)
  | [], k, v => [(k, v)]
  | (k', v') :: rest, k, v =>
      if k' == k then (k, v) :: rest else (k', v') :: setAssoc rest k v

/-- `EXTENSION_VERSION` from `src/constants.ts`. -/
def EXTENSION_VERSION : String := "1.0.1"

/-- `CacheItem<T>` from `src/cache.ts`. -/
structure CacheItem (T : Type) where
  data : T
  timestamp : Nat
  expiresAt : Nat
  version : String
deriving DecidableEq, Repr

/-- One record of the persistent tier: either a parsable `CacheItem` or a
record whose read/parse throws (`JSON.parse` failure, unreadable file). -/
inductive DiskEntry (T : Type) where
  | record : CacheItem T → DiskEntry T
  | corrupt : DiskEntry T
deriving DecidableEq, Repr

/-- The two tiers of `CacheStorageService` plus filesystem write
availability. -/
structure CacheState (T : Type) where
  memoryCache : List (String × CacheItem T)
  disk : List (String × DiskEntry T)
  diskWriteOk : Bool
deriving DecidableEq, Repr

namespace CacheStorageService

/-- `maxCacheAge` (24 hours in milliseconds) from `src/cache.ts`. -/
def maxCacheAge : Nat := 24 * 60 * 60 * 1000

/-- The validity test applied to both tiers in `getOrFetch`:
`item.expiresAt > Date.now() && item.version === EXTENSION_VERSION`. -/
def itemLive {T : Type} (now : Nat) (it : CacheItem T) : Bool :=
  decide (it.expiresAt > now) && (it.version == EXTENSION_VERSION)

/-- `readFromDiskCache`: a missing file (`stat` throws) yields `null`
(`Except.ok none`); a corrupt record makes `JSON.parse` throw
(`Except.error ()`); otherwise the parsed item is returned. -/
def readFromDiskCache {T : Type} (st : CacheState T) (key : String) :
    Except Unit (Option (CacheItem T)) :=
  match st.disk.lookup key with
  | none => .ok none
  | some (.record it) => .ok (some it)
  | some .corrupt => .error ()

/-- `writeToDiskCache`: stores the record, or throws when the filesystem
rejects the write.  The source wraps this call in no try/catch. -/
def writeToDiskCache {T : Type} (st : CacheState T) (key : String)
    (item : CacheItem T) : Except Unit (CacheState T) :=
  if st.diskWriteOk then
    .ok { st with disk := setAssoc st.disk key (.record item) }
  else
    .error ()

/-- The outcome of one `getOrFetch` call: the returned value or escaped
exception, the cache state afterwards, and how often `fetchFn` ran. -/
structure GetOrFetchResult (T : Type) where
  result : Except Unit T
  state : CacheState T
  producerCalls : Nat
deriving Repr

/-- `CacheStorageService.getOrFetch` from `src/cache.ts`, single-threaded:
memory tier first, then the disk tier inside a try/catch that treats a read
exception as a miss, then the producer; a fresh item is stamped with
`Date.now() + maxCacheAge` and `EXTENSION_VERSION`, stored in memory, and
written to disk with no exception handler around the write. -/
def getOrFetch {T : Type} (now : Nat) (key : String) (fetchFn : Except Unit T)
    (st : CacheState T) : GetOrFetchResult T :=
  -- Try memory cache first
  let memHit : Option T :=
    match st.memoryCache.lookup key with
    | some memItem => if itemLive now memItem then some memItem.data else none
    | none => none
  match memHit with
  | some data => ⟨.ok data, st, 0⟩
  | none =>
    -- Try disk cache; an exception while reading is logged and treated
    -- as a miss
    let diskHit : Option (CacheItem T) :=
      match readFromDiskCache st key with
      | .ok (some diskItem) =>
          if itemLive now diskItem then some diskItem else none
      | .ok none => none
      | .error _ => none
    match diskHit with
    | some diskItem =>
        -- Refresh memory cache, return the disk data
        ⟨.ok diskItem.data,
          { st with memoryCache := setAssoc st.memoryCache key diskItem }, 0⟩
    | none =>
      -- Fetch new data
      match fetchFn with
      | .error e => ⟨.error e, st, 1⟩
      | .ok data =>
        let cacheItem : CacheItem T :=
          { data := data, timestamp := now, expiresAt := now + maxCacheAge,
            version := EXTENSION_VERSION }
        let st' :=
          { st with memoryCache := setAssoc st.memoryCache key cacheItem }
        match writeToDiskCache st' key cacheItem with
        | .ok st'' => ⟨.ok data, st'', 1⟩
        | .error e => ⟨.error e, st', 1⟩

end CacheStorageService

mutual

/-- A DOM node as produced by `DOMParser.parseFromString`: an element with a
tag name, attributes in document order, and child nodes, or a text node. -/
inductive XNode where
  | elem (tag : String) (attrs : List (String × String)) (children : XForest)
  | text (s : String)

/-- A `childNodes` sequence (a mutual inductive rather than `List XNode`, so
that recursion over trees stays kernel-reducible). -/
inductive XForest where
  | nil
  | cons (head : XNode) (tail : XForest)

end

/-- Kernel-reducible model of `toLowerCase` (`String.toLower`): lower-case
every character. -/
def lowerStr (s : String) : String :=
  ⟨s.data.map Char.toLower⟩

/-- A parsed document: the top-level nodes of the tree. -/
structure HtmlDocument where
  roots : XForest

/-- `nodeName` of a node (elements report their tag, text nodes `#text`). -/
def XNode.nodeName : XNode → String
  | .elem tag _ _ => tag
  | .text _ => "#text"

/-- `getAttribute`: the first binding of the attribute, `null` when absent. -/
def getAttr (attrs : List (String × String)) (name : String) : Option String :=
  attrs.lookup name

mutual

/-- The element itself followed by its descendant elements, in document
(pre-order) order. -/
def XNode.selfAndDescendantElems : XNode → List XNode
  | .text _ => []
  | .elem tag attrs children =>
      .elem tag attrs children :: descendantElemsOfForest children

/-- Elements of a forest in document order. -/
def descendantElemsOfForest : XForest → List XNode
  | .nil => []
  | .cons c cs => c.selfAndDescendantElems ++ descendantElemsOfForest cs

end

/-- All elements of a document in document order. -/
def HtmlDocument.allElems (doc : HtmlDocument) : List XNode :=
  descendantElemsOfForest doc.roots

/-- Kernel-reducible model of splitting on whitespace (the token split of a
`class` attribute value). -/
def splitWsAux : List Char → List Char → List String
  | [], acc => [⟨acc.reverse⟩]
  | c :: cs, acc =>
      if c.isWhitespace then (⟨acc.reverse⟩ : String) :: splitWsAux cs []
      else splitWsAux cs (c :: acc)

/-- Whitespace split of a string. -/
def splitWs (s : String) : List String :=
  splitWsAux s.data []

/-- Whether an element's `class` attribute contains the class name as a
whitespace-separated token (the match performed by xmldom's
`getElementsByClassName`). -/
def hasClassToken (attrs : List (String × String)) (className : String) : Bool :=
  match attrs.lookup "class" with
  | none => false
  | some cls => (splitWs cls).contains className

/-- Whether a node is an element carrying the class token. -/
def XNode.matchesClass (n : XNode) (className : String) : Bool :=
  match n with
  | .elem _ attrs _ => hasClassToken attrs className
  | .text _ => false

namespace NodeManipulator

/-- `NodeManipulator.getElementsByClassName` on the whole document. -/
def getElementsByClassName (doc : HtmlDocument) (className : String) :
    List XNode :=
  doc.allElems.filter (fun e => e.matchesClass className)

/-- `NodeManipulator.getFirstElementByClassAndTag`: the first element of the
class whose tag name matches case-insensitively. -/
def getFirstElementByClassAndTag (doc : HtmlDocument) (className : String)
    (tagName : String) : Option XNode :=
  (getElementsByClassName doc className).find?
    (fun e => lowerStr e.nodeName == lowerStr tagName)

end NodeManipulator

namespace MdnDocsLoader

/-- The anchor-href mutation of `cleanDocumentation`:
`anchor.setAttribute("href", "https://developer.mozilla.org" + href)` where
`href = anchor.getAttribute("href")` — unconditionally, with a missing
attribute (`null`) rendered as the string `"null"` by the template literal. -/
def rewriteHref (attrs : List (String × String)) : List (String × String) :=
  setAssoc attrs "href"
    ("https://developer.mozilla.org" ++
      (match getAttr attrs "href" with
       | some href => href
       | none => "null"))

mutual

/-- Effect of `forEachTag(document, 'a', rewrite)` on the region:
`getElementsByTagName` yields the region's descendants (not the region
itself) whose node name is exactly `a`, and each one's `href` is rewritten
in place; the tree structure is unchanged, so the mutation is a map. -/
def rewriteAnchors : XNode → XNode
  | .text s => .text s
  | .elem tag attrs children => .elem tag attrs (rewriteAnchorsIn children)

/-- `rewriteAnchors` applied below the region root. -/
def rewriteAnchorsUnder : XNode → XNode
  | .text s => .text s
  | .elem tag attrs children =>
      .elem tag (if tag == "a" then rewriteHref attrs else attrs)
        (rewriteAnchorsIn children)

/-- `rewriteAnchorsUnder` over a forest. -/
def rewriteAnchorsIn : XForest → XForest
  | .nil => .nil
  | .cons c cs => .cons (rewriteAnchorsUnder c) (rewriteAnchorsIn cs)

end

/-- `allowedTags` from `cleanDocumentation` in `src/mdn.ts`. -/
def allowedTags : List String := ["a", "code", "div", "p", "span", "strong"]

mutual

/-- Effect of the `walkRecursive` removal pass of `cleanDocumentation` on
the attached tree.  The walk starts at the region's `childNodes` (the region
root itself is never examined), visits every original node exactly once on a
snapshot taken before its children are mutated, skips non-element nodes, and
detaches every element whose lowercased node name is not allow-listed
together with its whole subtree (`removeChild` on its parent).  Children of
a detached node are still visited by the walk but are no longer part of the
document, so on the attached tree the pass keeps text children, drops
disallowed element children with their subtrees, and recurses into allowed
element children. -/
def removeDisallowed : XNode → XNode
  | .text s => .text s
  | .elem tag attrs children => .elem tag attrs (removeDisallowedIn children)

/-- The removal pass over a forest of child nodes. -/
def removeDisallowedIn : XForest → XForest
  | .nil => .nil
  | .cons (.text s) cs => .cons (.text s) (removeDisallowedIn cs)
  | .cons (.elem tag attrs children) cs =>
      if allowedTags.contains (lowerStr tag) then
        .cons (.elem tag attrs (removeDisallowedIn children))
          (removeDisallowedIn cs)
      else
        removeDisallowedIn cs

end

/-- Text escaping of xmldom's `XMLSerializer` (`&`, `<`, `>`). -/
def escapeText (s : String) : String :=
  String.join (s.data.map fun c =>
    if c = '&' then "&amp;"
    else if c = '<' then "&lt;"
    else if c = '>' then "&gt;"
    else String.singleton c)

/-- Attribute-value escaping of xmldom's `XMLSerializer`. -/
def escapeAttrValue (s : String) : String :=
  String.join (s.data.map fun c =>
    if c = '&' then "&amp;"
    else if c = '<' then "&lt;"
    else if c = '"' then "&quot;"
    else String.singleton c)

/-- Serialized attribute list, in document order. -/
def serializeAttrs (attrs : List (String × String)) : String :=
  String.join (attrs.map fun a =>
    " " ++ a.1 ++ "=\"" ++ escapeAttrValue a.2 ++ "\"")

mutual

/-- `XMLSerializer.serializeToString` on a node (empty elements are
self-closed). -/
def serializeNode : XNode → String
  | .text s => escapeText s
  | .elem tag attrs .nil => "<" ++ tag ++ serializeAttrs attrs ++ "/>"
  | .elem tag attrs (.cons c cs) =>
      "<" ++ tag ++ serializeAttrs attrs ++ ">" ++
        serializeChildren (.cons c cs) ++ "</" ++ tag ++ ">"

/-- Serialization of a forest. -/
def serializeChildren : XForest → String
  | .nil => ""
  | .cons c cs => serializeNode c ++ serializeChildren cs

end

/-- `MdnDocsLoader.cleanDocumentation`: rewrite every anchor's `href`, run
the removal walk, serialize the region. -/
def cleanDocumentation (region : XNode) : String :=
  serializeNode (removeDisallowed (rewriteAnchors region))

/-- `MdnDocsLoader.extractDocumentation` (on the parsed tree of the page):
find the first `div` with class `section-content`; there is no fallback. -/
def extractDocumentation (doc : HtmlDocument) : Option String :=
  match NodeManipulator.getFirstElementByClassAndTag doc "section-content"
      "div" with
  | some sectionContent => some (cleanDocumentation sectionContent)
  | none => none

end MdnDocsLoader

/-- A `version_added` / `version_removed` value of the compatibility dataset:
a version string or a boolean (the dataset's other sentinel, `null`, never
reaches this code path and is modelled as the field being absent). -/
inductive VersionValue where
  | vstr (s : String)
  | vbool (b : Bool)
deriving Repr, DecidableEq

/-- `SimpleSupportStatement` (the fields this code reads). -/
structure SimpleSupportStatement where
  version_added : Option VersionValue
  version_removed : Option VersionValue
deriving Repr, DecidableEq

/-- `SupportStatement`: one statement or a nonempty array of statements. -/
inductive SupportStatement where
  | single (s : SimpleSupportStatement)
  | multiple (head : SimpleSupportStatement) (tail : List SimpleSupportStatement)
deriving Repr, DecidableEq

/-- `CompatStatement`: per-browser support, in the dataset's key order
(`Object.entries`). -/
structure CompatStatement where
  support : List (String × SupportStatement)
deriving Repr, DecidableEq

/-- An attribute entry of the dataset: its optional `__compat` record. -/
structure AttrEntry where
  compat : Option CompatStatement
deriving Repr, DecidableEq

/-- An element entry of the dataset: optional `__compat` plus the
sub-features keyed by attribute name. -/
structure ElementEntry where
  compat : Option CompatStatement
  attributes : List (String × AttrEntry)
deriving Repr, DecidableEq

/-- The slice of `@mdn/browser-compat-data` this code reads:
`bcd.html.elements` and `bcd.html.global_attributes`. -/
structure Bcd where
  elements : List (String × ElementEntry)
  global_attributes : List (String × AttrEntry)
deriving Repr, DecidableEq

/-- JavaScript truthiness of a `version_added` / `version_removed` value
(`undefined`, `false` and `""` are falsy). -/
def jsTruthy : Option VersionValue → Bool
  | none => false
  | some (.vstr s) => !(s == "")
  | some (.vbool b) => b

/-- JavaScript `a || b` on such values: `a` when truthy, else `b`. -/
def jsOr (a b : Option VersionValue) : Option VersionValue :=
  if jsTruthy a then a else b

namespace BrowserCompatDataLoader

/-- The summary record produced per browser. -/
structure BrowserCompatSummary where
  browser : String
  version : String
  present : Bool
deriving Repr, DecidableEq

/-- The fixed `browserNames` display-name table. -/
def browserNames : List (String × String) :=
  [("chrome", "Chrome"), ("chrome_android", "Chrome Android"),
   ("deno", "Deno"), ("edge", "Edge"), ("firefox", "Firefox"),
   ("firefox_android", "Firefox Android"), ("ie", "IE"),
   ("nodejs", "Node.js"), ("oculus", "Oculus"), ("opera", "Opera"),
   ("opera_android", "Opera Android"), ("safari", "Safari"),
   ("safari_ios", "Safari iOS"),
   ("samsunginternet_android", "Samsung Internet Android"),
   ("webview_android", "WebView Android"), ("webview_ios", "WebView iOS")]

/-- `parseSimpleSupportStatement`:
`version = statement.version_added || statement.version_removed`; an entry is
built only when `typeof version === "string"`, with the display name
(`browserNames[browser] || browser`, every table value being truthy) and
`present = !!statement.version_added`. -/
def parseSimpleSupportStatement (browser : String)
    (statement : SimpleSupportStatement) : Option BrowserCompatSummary :=
  match jsOr statement.version_added statement.version_removed with
  | some (.vstr v) =>
      some { browser := (browserNames.lookup browser).getD browser,
             version := v,
             present := jsTruthy statement.version_added }
  | _ => none

/-- `parseSupportStatement`: of an array of statements only the first is
processed (the TODO-acknowledged simplification). -/
def parseSupportStatement (browser : String) (support : SupportStatement) :
    Option BrowserCompatSummary :=
  match support with
  | .multiple head _tail => parseSimpleSupportStatement browser head
  | .single s => parseSimpleSupportStatement browser s

/-- `parseCompat`: map `parseSupportStatement` over the entries and
`filter(Boolean)`. -/
def parseCompat (compat : CompatStatement) : List BrowserCompatSummary :=
  (compat.support.map (fun e => parseSupportStatement e.1 e.2)).filterMap id

/-- `getBrowserCompatDataForElement`:
`bcd.html.elements[element.toLowerCase()]?.__compat`, `undefined` when the
element or its `__compat` record is absent. -/
def getBrowserCompatDataForElement (bcd : Bcd) (element : String) :
    Option (List BrowserCompatSummary) :=
  match (bcd.elements.lookup (lowerStr element)).bind (fun e => e.compat) with
  | none => none
  | some compat => some (parseCompat compat)

/-- `getBrowserCompatDataForGlobalAttribute`:
`bcd.html.global_attributes[element.toLowerCase()]?.__compat`. -/
def getBrowserCompatDataForGlobalAttribute (bcd : Bcd) (element : String) :
    Option (List BrowserCompatSummary) :=
  match (bcd.global_attributes.lookup (lowerStr element)).bind
      (fun e => e.compat) with
  | none => none
  | some compat => some (parseCompat compat)

/-- `getBrowserCompatDataForElementAttribute`:
`bcd.html.elements[element.toLowerCase()][attribute.toLowerCase()]?.__compat`.
The optional chaining sits only after the attribute access, so when the
element itself is absent the attribute access reads a property of
`undefined` and throws a `TypeError` (`Except.error ()`). -/
def getBrowserCompatDataForElementAttribute (bcd : Bcd)
    (element attr : String) :
    Except Unit (Option (List BrowserCompatSummary)) :=
  match bcd.elements.lookup (lowerStr element) with
  | none => .error ()
  | some entry =>
    match (entry.attributes.lookup (lowerStr attr)).bind
        (fun e => e.compat) with
    | none => .ok none
    | some compat => .ok (some (parseCompat compat))

end BrowserCompatDataLoader

/-- An HTTP response as the producer sees it: the status code and the parsed
body (`response.text()` fed to `DOMParser`). -/
structure HttpResponse where
  status : Nat
  body : HtmlDocument

/-- `response.ok`: status in the 2xx range. -/
def responseOk (r : HttpResponse) : Bool :=
  decide (200 ≤ r.status) && decide (r.status ≤ 299)

namespace MdnDocsLoader

/-- The body of the `try` block of `MdnDocsLoader.fetch`: a rejected network
call re-raises, a non-2xx response throws
`new Error("Failed to fetch MDN docs …")`, and a 2xx response is extracted. -/
def fetchAttempt (outcome : Except Unit HttpResponse) :
    Except Unit (Option String) :=
  match outcome with
  | .error e => .error e
  | .ok response =>
      if responseOk response then .ok (extractDocumentation response.body)
      else .error ()

/-- `MdnDocsLoader.fetch` (the producer handed to `getOrFetch`): the `catch`
block logs the exception and returns `undefined`, so the producer never
rejects. -/
def fetch (outcome : Except Unit HttpResponse) : Except Unit (Option String) :=
  match fetchAttempt outcome with
  | .ok v => .ok v
  | .error _ => .ok none

/-- `buildMarkdownString`: the sanitized content, then — whenever a summary
array was supplied, even an empty one — the browser-compatibility line, then
the MDN reference link. -/
def buildMarkdownString (content url : String)
    (browserCompatSummary :
      Option (List BrowserCompatDataLoader.BrowserCompatSummary)) : String :=
  let withCompat :=
    match browserCompatSummary with
    | some summary =>
        content ++ "<p><small><strong>Browser Compatibility</strong>: " ++
          String.intercalate ", " (summary.map fun item =>
            item.browser ++ " (<i>" ++
              (if item.present then ">= " else "<= ") ++
              "</i> <strong>v" ++ item.version ++ "</strong>)") ++
          "</small></p>"
    | none => content
  withCompat ++ "\n\n[MDN Reference](" ++ url ++ ")"

/-- Outcome of one fetch entry point: the returned markdown (or `undefined`,
or the escaped exception), the cache state afterwards, and the number of
producer runs. -/
structure FetchEntryResult where
  result : Except Unit (Option String)
  state : CacheState (Option String)
  producerCalls : Nat
deriving Repr

/-- `MdnDocsLoader.fetchHtmlElement`: build URL and cache key, `getOrFetch`
with the fetch producer, return `undefined` for missing documentation, else
attach the element's compatibility summary and the reference link.  The
`catch` block only logs and rethrows. -/
def fetchHtmlElement (bcd : Bcd) (language element : String)
    (outcome : Except Unit HttpResponse) (now : Nat)
    (st : CacheState (Option String)) : FetchEntryResult :=
  let documentationUrl := "https://developer.mozilla.org/" ++ language ++
    "/docs/Web/HTML/Element/" ++ element
  let cacheKey := "mdn-docs-html-element-" ++ element ++ "-" ++ language
  let r := CacheStorageService.getOrFetch now cacheKey (fetch outcome) st
  match r.result with
  | .error e => ⟨.error e, r.state, r.producerCalls⟩
  | .ok none => ⟨.ok none, r.state, r.producerCalls⟩
  | .ok (some documentation) =>
      let browserCompatSummary :=
        BrowserCompatDataLoader.getBrowserCompatDataForElement bcd element
      ⟨.ok (some (buildMarkdownString documentation documentationUrl
          browserCompatSummary)), r.state, r.producerCalls⟩

/-- `MdnDocsLoader.fetchGlobalAttribute`, analogous to `fetchHtmlElement`. -/
def fetchGlobalAttribute (bcd : Bcd) (language attr : String)
    (outcome : Except Unit HttpResponse) (now : Nat)
    (st : CacheState (Option String)) : FetchEntryResult :=
  let documentationUrl := "https://developer.mozilla.org/" ++ language ++
    "/docs/Web/HTML/Global_attributes/" ++ attr
  let cacheKey := "mdn-docs-html-global-attribute-" ++ attr ++ "-" ++
    language
  let r := CacheStorageService.getOrFetch now cacheKey (fetch outcome) st
  match r.result with
  | .error e => ⟨.error e, r.state, r.producerCalls⟩
  | .ok none => ⟨.ok none, r.state, r.producerCalls⟩
  | .ok (some documentation) =>
      let browserCompatSummary :=
        BrowserCompatDataLoader.getBrowserCompatDataForGlobalAttribute bcd
          attr
      ⟨.ok (some (buildMarkdownString documentation documentationUrl
          browserCompatSummary)), r.state, r.producerCalls⟩

/-- `MdnDocsLoader.fetchElementAttribute`: the compatibility lookup runs only
when an owning element was supplied; a `TypeError` it throws is caught by
the entry point's `catch`, logged, and rethrown. -/
def fetchElementAttribute (bcd : Bcd) (language attr : String)
    (element : Option String) (outcome : Except Unit HttpResponse) (now : Nat)
    (st : CacheState (Option String)) : FetchEntryResult :=
  let documentationUrl := "https://developer.mozilla.org/" ++ language ++
    "/docs/Web/HTML/Attributes/" ++ attr
  let cacheKey := "mdn-docs-html-element-attribute-" ++ attr ++ "-" ++
    language
  let r := CacheStorageService.getOrFetch now cacheKey (fetch outcome) st
  match r.result with
  | .error e => ⟨.error e, r.state, r.producerCalls⟩
  | .ok none => ⟨.ok none, r.state, r.producerCalls⟩
  | .ok (some documentation) =>
      match element with
      | some el =>
          match BrowserCompatDataLoader.getBrowserCompatDataForElementAttribute
              bcd el attr with
          | .error e => ⟨.error e, r.state, r.producerCalls⟩
          | .ok browserCompatSummary =>
              ⟨.ok (some (buildMarkdownString documentation documentationUrl
                  browserCompatSummary)), r.state, r.producerCalls⟩
      | none =>
          ⟨.ok (some (buildMarkdownString documentation documentationUrl
              none)), r.state, r.producerCalls⟩

end MdnDocsLoader

/-! ### Verification-side observers -/

mutual

/-- Every element of the tree, the root included, carries an allow-listed
tag (case-insensitively). -/
def allTagsAllowed : XNode → Bool
  | .text _ => true
  | .elem tag _ children =>
      MdnDocsLoader.allowedTags.contains (lowerStr tag) &&
        allTagsAllowedIn children

/-- `allTagsAllowed` over a forest. -/
def allTagsAllowedIn : XForest → Bool
  | .nil => true
  | .cons c cs => allTagsAllowed c && allTagsAllowedIn cs

end

mutual

/-- The `href` attributes (possibly absent) of the anchors of a tree, the
root included, in document order. -/
def anchorHrefsFrom : XNode → List (Option String)
  | .text _ => []
  | .elem tag attrs children =>
      (if tag == "a" then [getAttr attrs "href"] else []) ++
        anchorHrefsIn children

/-- `anchorHrefsFrom` over a forest. -/
def anchorHrefsIn : XForest → List (Option String)
  | .nil => []
  | .cons c cs => anchorHrefsFrom c ++ anchorHrefsIn cs

end

/-- The `href` attributes of the anchors strictly below a region root (the
anchors that `forEachTag` visits). -/
def anchorHrefs : XNode → List (Option String)
  | .text _ => []
  | .elem _ _ children => anchorHrefsIn children

/-- Substring test on character lists. -/
def subListOf (needle : List Char) : List Char → Bool
  | [] => needle.isEmpty
  | c :: cs => needle.isPrefixOf (c :: cs) || subListOf needle cs

/-- Substring test on strings. -/
def containsSub (needle hay : String) : Bool :=
  subListOf needle.data hay.data

/-! ### Concrete fixtures -/

/-- The spec's sanitization fixture, parsed:
`<div class="section-content"><p>Text<script>evil()</script></p><a href="/docs/X">link</a></div>`. -/
def fixtureRegion : XNode :=
  .elem "div" [("class", "section-content")]
    (.cons (.elem "p" []
        (.cons (.text "Text")
          (.cons (.elem "script" [] (.cons (.text "evil()") .nil)) .nil)))
      (.cons (.elem "a" [("href", "/docs/X")] (.cons (.text "link") .nil))
        .nil))

/-- A page whose body contains the fixture region. -/
def fixtureDoc : HtmlDocument :=
  ⟨.cons (.elem "html" []
      (.cons (.elem "body" [] (.cons fixtureRegion .nil)) .nil)) .nil⟩

/-- A page with a `section` element but no `section-content` `div`. -/
def sectionOnlyDoc : HtmlDocument :=
  ⟨.cons (.elem "html" []
      (.cons (.elem "body" []
          (.cons (.elem "section" []
              (.cons (.elem "p" [] (.cons (.text "x") .nil)) .nil)) .nil))
        .nil)) .nil⟩

/-- A content region whose only anchor already has an absolute target. -/
def absAnchorRegion : XNode :=
  .elem "div" [("class", "section-content")]
    (.cons (.elem "a" [("href", "https://example.com")]
        (.cons (.text "ext") .nil)) .nil)

/-- A small concrete slice of the compatibility dataset: the `video`
element with one Chrome statement and one `src` attribute, and the global
attribute `hidden`. -/
def sampleBcd : Bcd :=
  ⟨[("video",
      ⟨some ⟨[("chrome", .single ⟨some (.vstr "3"), none⟩)]⟩,
       [("src",
          ⟨some ⟨[("firefox", .single ⟨some (.vstr "3.5"), none⟩)]⟩⟩)]⟩)],
   [("hidden", ⟨some ⟨[("edge", .single ⟨some (.vstr "12"), none⟩)]⟩⟩)]⟩

/-! ### Shared lemmas -/

theorem lookup_setAssoc_self {β : Type} (l : List (String × β)) (k : String)
    (v : β) : (setAssoc l k v).lookup k = some v := by
  induction l with
  | nil => simp [setAssoc, List.lookup]
  | cons hd tl ih =>
      obtain ⟨k', v'⟩ := hd
      by_cases h : k' = k
      · subst h
        simp [setAssoc, List.lookup]
      · have h1 : (k' == k) = false := by
          simp [h]
        have h2 : (k == k') = false := by
          simp [Ne.symm h]
        simp [setAssoc, h1, List.lookup, h2, ih]

namespace CacheStorageService

/-- A `getOrFetch` call that misses in both tiers, with a fulfilled producer
and a writable persistent tier, runs the producer once, returns its value,
stores the stamped item in both tiers, and leaves the write flag as it
was. -/
theorem getOrFetch_miss_eq {T : Type} (now : Nat) (key : String) (v : T)
    (st : CacheState T)
    (hmem : ∀ it, st.memoryCache.lookup key = some it →
      itemLive now it = false)
    (hdisk : ∀ it, st.disk.lookup key = some (.record it) →
      itemLive now it = false)
    (hw : st.diskWriteOk = true) :
    getOrFetch now key (.ok v) st =
      ⟨.ok v,
        { memoryCache := setAssoc st.memoryCache key
            ⟨v, now, now + maxCacheAge, EXTENSION_VERSION⟩,
          disk := setAssoc st.disk key
            (.record ⟨v, now, now + maxCacheAge, EXTENSION_VERSION⟩),
          diskWriteOk := st.diskWriteOk }, 1⟩ := by
  unfold getOrFetch readFromDiskCache writeToDiskCache
  cases hm : st.memoryCache.lookup key with
  | none =>
      cases hd : st.disk.lookup key with
      | none => simp [hm, hd, hw]
      | some entry =>
          cases entry with
          | record it => simp [hm, hd, hdisk it hd, hw]
          | corrupt => simp [hm, hd, hw]
  | some it =>
      have hlive := hmem it hm
      cases hd : st.disk.lookup key with
      | none => simp [hm, hlive, hd, hw]
      | some entry =>
          cases entry with
          | record it' => simp [hm, hlive, hd, hdisk it' hd, hw]
          | corrupt => simp [hm, hlive, hd, hw]

/-- A memory-tier entry that is unexpired and version-current is returned
immediately, with no producer run and no state change. -/
theorem getOrFetch_memHit_eq {T : Type} (now : Nat) (key : String)
    (p : Except Unit T) (st : CacheState T) (it : CacheItem T)
    (hm : st.memoryCache.lookup key = some it)
    (hlive : itemLive now it = true) :
    getOrFetch now key p st = ⟨.ok it.data, st, 0⟩ := by
  unfold getOrFetch
  simp [hm, hlive]

/-- The freshly stamped item is valid at any instant before its expiry. -/
theorem itemLive_fresh {T : Type} (now now2 : Nat) (v : T)
    (h2 : now2 < now + maxCacheAge) :
    itemLive now2
      (⟨v, now, now + maxCacheAge, EXTENSION_VERSION⟩ : CacheItem T) = true := by
  simp [itemLive, EXTENSION_VERSION]
  omega

end CacheStorageService

open CacheStorageService in
/-- C1: when neither the memory tier nor the persistent tier holds a valid
entry for a key, `getOrFetch` with a producer fulfilling with `v` runs that
producer exactly once, returns `v`, and stores the stamped entry in both
tiers; a second `getOrFetch` for the same key with any other producer, at
any instant before the 24-hour expiry, returns the cached value and runs no
producer (single-threaded harness). -/
theorem claim1_idempotent_caching {T : Type} (now now2 : Nat) (key : String)
    (v : T) (p' : Except Unit T) (st : CacheState T)
    (hmem : ∀ it, st.memoryCache.lookup key = some it →
      itemLive now it = false)
    (hdisk : ∀ it, st.disk.lookup key = some (.record it) →
      itemLive now it = false)
    (hw : st.diskWriteOk = true)
    (h2 : now2 < now + maxCacheAge) :
    (getOrFetch now key (.ok v) st).producerCalls = 1 ∧
    (getOrFetch now key (.ok v) st).result = .ok v ∧
    (getOrFetch now key (.ok v) st).state.memoryCache.lookup key =
      some ⟨v, now, now + maxCacheAge, EXTENSION_VERSION⟩ ∧
    (getOrFetch now key (.ok v) st).state.disk.lookup key =
      some (.record ⟨v, now, now + maxCacheAge, EXTENSION_VERSION⟩) ∧
    (getOrFetch now2 key p'
      (getOrFetch now key (.ok v) st).state).result = .ok v ∧
    (getOrFetch now2 key p'
      (getOrFetch now key (.ok v) st).state).producerCalls = 0 := by
  have h1 := getOrFetch_miss_eq now key v st hmem hdisk hw
  have hmem2 : (getOrFetch now key (.ok v) st).state.memoryCache.lookup key =
      some ⟨v, now, now + maxCacheAge, EXTENSION_VERSION⟩ := by
    rw [h1]
    exact lookup_setAssoc_self _ _ _
  have h2nd := getOrFetch_memHit_eq now2 key p' _ _ hmem2
    (itemLive_fresh now now2 v h2)
  refine ⟨?_, ?_, hmem2, ?_, ?_, ?_⟩
  · simp [h1]
  · simp [h1]
  · rw [h1]
    exact lookup_setAssoc_self _ _ _
  · rw [h2nd]
  · rw [h2nd]

/-- Witness for C1 at a concrete input. -/
theorem claim1_idempotent_caching_witness :
    (CacheStorageService.getOrFetch 0 "k" (.ok (7 : Nat))
      ⟨[], [], true⟩).producerCalls = 1 ∧
    (CacheStorageService.getOrFetch 0 "k" (.ok (7 : Nat))
      ⟨[], [], true⟩).result = .ok 7 ∧
    (CacheStorageService.getOrFetch 0 "k" (.ok (7 : Nat))
      ⟨[], [], true⟩).state.memoryCache.lookup "k" =
      some ⟨7, 0, 0 + CacheStorageService.maxCacheAge, EXTENSION_VERSION⟩ ∧
    (CacheStorageService.getOrFetch 0 "k" (.ok (7 : Nat))
      ⟨[], [], true⟩).state.disk.lookup "k" =
      some (.record ⟨7, 0, 0 + CacheStorageService.maxCacheAge,
        EXTENSION_VERSION⟩) ∧
    (CacheStorageService.getOrFetch 5 "k" (.ok (9 : Nat))
      (CacheStorageService.getOrFetch 0 "k" (.ok (7 : Nat))
        ⟨[], [], true⟩).state).result = .ok 7 ∧
    (CacheStorageService.getOrFetch 5 "k" (.ok (9 : Nat))
      (CacheStorageService.getOrFetch 0 "k" (.ok (7 : Nat))
        ⟨[], [], true⟩).state).producerCalls = 0 :=
  claim1_idempotent_caching 0 5 "k" 7 (.ok 9) ⟨[], [], true⟩
    (fun it h => by simp at h) (fun it h => by simp at h) rfl (by decide)

open CacheStorageService in
/-- C2: an entry stamped with format version `"1.0.0"` is treated as a miss
by `getOrFetch` in both tiers while the service's current format version is
`"1.0.1"`, even though its `expiresAt` lies in the future, so the producer
is invoked again. -/
theorem claim2_version_gates_expiry {T : Type} (now : Nat) (key : String)
    (p : Except Unit T) (st : CacheState T) (itm itd : CacheItem T)
    (hm : st.memoryCache.lookup key = some itm)
    (hmv : itm.version = "1.0.0") (hmx : now < itm.expiresAt)
    (hd : st.disk.lookup key = some (.record itd))
    (hdv : itd.version = "1.0.0") (hdx : now < itd.expiresAt) :
    EXTENSION_VERSION = "1.0.1" ∧
    (getOrFetch now key p st).producerCalls = 1 := by
  refine ⟨rfl, ?_⟩
  have hlm : itemLive now itm = false := by
    simp [itemLive, hmv, EXTENSION_VERSION]
  have hld : itemLive now itd = false := by
    simp [itemLive, hdv, EXTENSION_VERSION]
  unfold getOrFetch readFromDiskCache writeToDiskCache
  cases p with
  | error e => simp [hm, hd, hlm, hld]
  | ok d =>
      by_cases hw : st.diskWriteOk = true
      · simp [hm, hd, hlm, hld, hw]
      · simp [hm, hd, hlm, hld, hw]

/-- Witness for C2 at a concrete input. -/
theorem claim2_version_gates_expiry_witness :
    EXTENSION_VERSION = "1.0.1" ∧
    (CacheStorageService.getOrFetch 50 "k" (.ok (9 : Nat))
      ⟨[("k", ⟨3, 0, 100, "1.0.0"⟩)],
       [("k", .record ⟨3, 0, 100, "1.0.0"⟩)], true⟩).producerCalls = 1 :=
  claim2_version_gates_expiry 50 "k" (.ok 9)
    ⟨[("k", ⟨3, 0, 100, "1.0.0"⟩)],
     [("k", .record ⟨3, 0, 100, "1.0.0"⟩)], true⟩
    ⟨3, 0, 100, "1.0.0"⟩ ⟨3, 0, 100, "1.0.0"⟩
    (by simp [List.lookup]) rfl (by decide)
    (by simp [List.lookup]) rfl (by decide)

namespace CacheStorageService

/-- A both-tier miss with a fulfilled producer but an unwritable persistent
tier: the producer runs, the memory tier receives the stamped item, and the
write exception escapes `getOrFetch`. -/
theorem getOrFetch_miss_writeFail_eq {T : Type} (now : Nat) (key : String)
    (v : T) (st : CacheState T)
    (hmem : ∀ it, st.memoryCache.lookup key = some it →
      itemLive now it = false)
    (hdisk : ∀ it, st.disk.lookup key = some (.record it) →
      itemLive now it = false)
    (hw : st.diskWriteOk = false) :
    getOrFetch now key (.ok v) st =
      ⟨.error (),
        { memoryCache := setAssoc st.memoryCache key
            ⟨v, now, now + maxCacheAge, EXTENSION_VERSION⟩,
          disk := st.disk,
          diskWriteOk := st.diskWriteOk }, 1⟩ := by
  unfold getOrFetch readFromDiskCache writeToDiskCache
  cases hm : st.memoryCache.lookup key with
  | none =>
      cases hd : st.disk.lookup key with
      | none => simp [hm, hd, hw]
      | some entry =>
          cases entry with
          | record it => simp [hm, hd, hdisk it hd, hw]
          | corrupt => simp [hm, hd, hw]
  | some it =>
      have hlive := hmem it hm
      cases hd : st.disk.lookup key with
      | none => simp [hm, hlive, hd, hw]
      | some entry =>
          cases entry with
          | record it' => simp [hm, hlive, hd, hdisk it' hd, hw]
          | corrupt => simp [hm, hlive, hd, hw]

end CacheStorageService

/-- C7 counterexample: on an empty cache whose persistent tier rejects
writes, `getOrFetch` with a fulfilled producer fails — the write failure
does make the overall call fail, contradicting the claim. -/
theorem claim7_counterexample :
    (CacheStorageService.getOrFetch 0 "k" (.ok (0 : Nat))
      ⟨[], [], false⟩).result = .error () := rfl

open CacheStorageService in
/-- C7 (amended): after a miss and a successful producer call, a failing
persistent-tier write propagates and fails the overall `getOrFetch` call
(the memory tier nevertheless keeps the fresh entry); by contrast, when the
persistent tier accepts writes, the call succeeds even if the key's disk
record was unreadable — only read failures are tolerated as misses. -/
theorem claim7_amended_write_failure_propagates {T : Type} (now : Nat)
    (key : String) (v : T) (st : CacheState T)
    (hmem : ∀ it, st.memoryCache.lookup key = some it →
      itemLive now it = false)
    (hdisk : ∀ it, st.disk.lookup key = some (.record it) →
      itemLive now it = false) :
    (st.diskWriteOk = false →
      (getOrFetch now key (.ok v) st).result = .error () ∧
      (getOrFetch now key (.ok v) st).producerCalls = 1 ∧
      (getOrFetch now key (.ok v) st).state.memoryCache.lookup key =
        some ⟨v, now, now + maxCacheAge, EXTENSION_VERSION⟩) ∧
    (st.diskWriteOk = true →
      (getOrFetch now key (.ok v) st).result = .ok v) := by
  constructor
  · intro hw
    have h1 := getOrFetch_miss_writeFail_eq now key v st hmem hdisk hw
    refine ⟨?_, ?_, ?_⟩
    · simp [h1]
    · simp [h1]
    · rw [h1]
      exact lookup_setAssoc_self _ _ _
  · intro hw
    have h1 := getOrFetch_miss_eq now key v st hmem hdisk hw
    simp [h1]

/-- Witness for the amended C7 at concrete inputs: a corrupt disk record for
the key in both runs; writes rejected in the first run, accepted in the
second. -/
theorem claim7_amended_write_failure_propagates_witness :
    ((CacheStorageService.getOrFetch 0 "k" (.ok (0 : Nat))
        ⟨[], [("k", .corrupt)], false⟩).result = .error () ∧
      (CacheStorageService.getOrFetch 0 "k" (.ok (0 : Nat))
        ⟨[], [("k", .corrupt)], false⟩).producerCalls = 1 ∧
      (CacheStorageService.getOrFetch 0 "k" (.ok (0 : Nat))
        ⟨[], [("k", .corrupt)], false⟩).state.memoryCache.lookup "k" =
        some ⟨0, 0, 0 + CacheStorageService.maxCacheAge,
          EXTENSION_VERSION⟩) ∧
    (CacheStorageService.getOrFetch 0 "k" (.ok (0 : Nat))
      ⟨[], [("k", .corrupt)], true⟩).result = .ok 0 :=
  ⟨(claim7_amended_write_failure_propagates 0 "k" 0
      ⟨[], [("k", .corrupt)], false⟩
      (fun it h => by simp at h)
      (fun it h => by simp [List.lookup] at h)).1 rfl,
   (claim7_amended_write_failure_propagates 0 "k" 0
      ⟨[], [("k", .corrupt)], true⟩
      (fun it h => by simp at h)
      (fun it h => by simp [List.lookup] at h)).2 rfl⟩

open CacheStorageService in
/-- C10: the fetch producer resolves to `undefined` on a network failure,
and likewise on a 2xx response whose body has no content region; after a
both-tier miss, `getOrFetch` with such a producer stores an entry whose
payload is `undefined`, stamped with the full 24-hour TTL, in both tiers,
and any later call for the key before expiry returns `undefined` without
running its producer. -/
theorem claim10_failed_fetch_suppresses_refetch (now now2 : Nat)
    (key : String) (p' : Except Unit (Option String))
    (st : CacheState (Option String)) (doc : HtmlDocument) (status : Nat)
    (hmem : ∀ it, st.memoryCache.lookup key = some it →
      itemLive now it = false)
    (hdisk : ∀ it, st.disk.lookup key = some (.record it) →
      itemLive now it = false)
    (hw : st.diskWriteOk = true)
    (h2 : now2 < now + maxCacheAge)
    (hdoc : NodeManipulator.getFirstElementByClassAndTag doc
      "section-content" "div" = none)
    (hst1 : 200 ≤ status) (hst2 : status ≤ 299) :
    MdnDocsLoader.fetch (.error ()) = .ok none ∧
    MdnDocsLoader.fetch (.ok ⟨status, doc⟩) = .ok none ∧
    (getOrFetch now key (MdnDocsLoader.fetch (.error ())) st).producerCalls
      = 1 ∧
    (getOrFetch now key (MdnDocsLoader.fetch (.error ()))
      st).state.memoryCache.lookup key =
      some ⟨none, now, now + maxCacheAge, EXTENSION_VERSION⟩ ∧
    (getOrFetch now key (MdnDocsLoader.fetch (.error ()))
      st).state.disk.lookup key =
      some (.record ⟨none, now, now + maxCacheAge, EXTENSION_VERSION⟩) ∧
    (getOrFetch now2 key p'
      (getOrFetch now key (MdnDocsLoader.fetch (.error ()))
        st).state).result = .ok none ∧
    (getOrFetch now2 key p'
      (getOrFetch now key (MdnDocsLoader.fetch (.error ()))
        st).state).producerCalls = 0 := by
  have hfe : MdnDocsLoader.fetch (.error ()) =
      (.ok none : Except Unit (Option String)) := rfl
  have hfd : MdnDocsLoader.fetch (.ok ⟨status, doc⟩) = .ok none := by
    simp [MdnDocsLoader.fetch, MdnDocsLoader.fetchAttempt, responseOk,
      hst1, hst2, MdnDocsLoader.extractDocumentation, hdoc]
  rw [hfe]
  have h1 := getOrFetch_miss_eq now key (none : Option String) st hmem
    hdisk hw
  have hmem2 : (getOrFetch now key
      (.ok (none : Option String)) st).state.memoryCache.lookup key =
      some ⟨none, now, now + maxCacheAge, EXTENSION_VERSION⟩ := by
    rw [h1]
    exact lookup_setAssoc_self _ _ _
  have h2nd := getOrFetch_memHit_eq now2 key p' _ _ hmem2
    (itemLive_fresh now now2 none h2)
  refine ⟨rfl, hfd, ?_, hmem2, ?_, ?_, ?_⟩
  · simp [h1]
  · rw [h1]
    exact lookup_setAssoc_self _ _ _
  · rw [h2nd]
  · rw [h2nd]

/-- Witness for C10 at concrete inputs (second call one millisecond before
expiry). -/
theorem claim10_failed_fetch_suppresses_refetch_witness :
    MdnDocsLoader.fetch (.error ()) = .ok none ∧
    MdnDocsLoader.fetch (.ok ⟨200, ⟨.nil⟩⟩) = .ok none ∧
    (CacheStorageService.getOrFetch 0 "mdn-docs-html-element-video-en-US"
      (MdnDocsLoader.fetch (.error ())) ⟨[], [], true⟩).producerCalls = 1 ∧
    (CacheStorageService.getOrFetch 0 "mdn-docs-html-element-video-en-US"
      (MdnDocsLoader.fetch (.error ()))
      ⟨[], [], true⟩).state.memoryCache.lookup
        "mdn-docs-html-element-video-en-US" =
      some ⟨none, 0, 0 + CacheStorageService.maxCacheAge,
        EXTENSION_VERSION⟩ ∧
    (CacheStorageService.getOrFetch 0 "mdn-docs-html-element-video-en-US"
      (MdnDocsLoader.fetch (.error ()))
      ⟨[], [], true⟩).state.disk.lookup
        "mdn-docs-html-element-video-en-US" =
      some (.record ⟨none, 0, 0 + CacheStorageService.maxCacheAge,
        EXTENSION_VERSION⟩) ∧
    (CacheStorageService.getOrFetch 86399999
      "mdn-docs-html-element-video-en-US" (.ok (some "late"))
      (CacheStorageService.getOrFetch 0 "mdn-docs-html-element-video-en-US"
        (MdnDocsLoader.fetch (.error ()))
        ⟨[], [], true⟩).state).result = .ok none ∧
    (CacheStorageService.getOrFetch 86399999
      "mdn-docs-html-element-video-en-US" (.ok (some "late"))
      (CacheStorageService.getOrFetch 0 "mdn-docs-html-element-video-en-US"
        (MdnDocsLoader.fetch (.error ()))
        ⟨[], [], true⟩).state).producerCalls = 0 :=
  claim10_failed_fetch_suppresses_refetch 0 86399999
    "mdn-docs-html-element-video-en-US" (.ok (some "late")) ⟨[], [], true⟩
    ⟨.nil⟩ 200
    (fun it h => by simp at h) (fun it h => by simp at h) rfl
    (by decide) rfl (by decide) (by decide)

/-- The removal pass leaves only allow-listed tags below any node. -/
theorem allTagsAllowedIn_removeDisallowedIn :
    ∀ cs : XForest,
      allTagsAllowedIn (MdnDocsLoader.removeDisallowedIn cs) = true
  | .nil => rfl
  | .cons (.text s) cs => by
      simp [MdnDocsLoader.removeDisallowedIn, allTagsAllowedIn,
        allTagsAllowed, allTagsAllowedIn_removeDisallowedIn cs]
  | .cons (.elem tag attrs children) cs => by
      by_cases h : lowerStr tag ∈ MdnDocsLoader.allowedTags
      · simp [MdnDocsLoader.removeDisallowedIn, h, allTagsAllowedIn,
          allTagsAllowed, allTagsAllowedIn_removeDisallowedIn children,
          allTagsAllowedIn_removeDisallowedIn cs]
      · simp [MdnDocsLoader.removeDisallowedIn, h,
          allTagsAllowedIn_removeDisallowedIn cs]

/-- An element returned by the `section-content`/`div` search has the tag
`div` (up to case). -/
theorem find_region_tag (doc : HtmlDocument) (region : XNode)
    (h : NodeManipulator.getFirstElementByClassAndTag doc "section-content"
      "div" = some region) :
    lowerStr region.nodeName = "div" := by
  unfold NodeManipulator.getFirstElementByClassAndTag at h
  have hp := List.find?_some h
  have hdl : lowerStr "div" = "div" := rfl
  rw [hdl] at hp
  simpa using hp

/-- C4: every element remaining after sanitization of an extracted region
carries an allow-listed tag, the returned markup string serializes exactly
that sanitized tree, and on the spec's fixture the paragraph and the
host-prefixed anchor survive while the script element is gone. -/
theorem claim4_sanitize_allowlist :
    (∀ doc region,
      NodeManipulator.getFirstElementByClassAndTag doc "section-content"
        "div" = some region →
      allTagsAllowed
        (MdnDocsLoader.removeDisallowed
          (MdnDocsLoader.rewriteAnchors region)) = true ∧
      MdnDocsLoader.cleanDocumentation region =
        MdnDocsLoader.serializeNode
          (MdnDocsLoader.removeDisallowed
            (MdnDocsLoader.rewriteAnchors region))) ∧
    MdnDocsLoader.cleanDocumentation fixtureRegion =
      "<div class=\"section-content\"><p>Text</p><a href=\"https://developer.mozilla.org/docs/X\">link</a></div>" ∧
    containsSub "<p>Text</p>"
      (MdnDocsLoader.cleanDocumentation fixtureRegion) = true ∧
    containsSub "<a href=\"https://developer.mozilla.org/docs/X\">link</a>"
      (MdnDocsLoader.cleanDocumentation fixtureRegion) = true ∧
    containsSub "script"
      (MdnDocsLoader.cleanDocumentation fixtureRegion) = false := by
  refine ⟨?_, rfl, rfl, rfl, rfl⟩
  intro doc region h
  have htag := find_region_tag doc region h
  cases region with
  | text s =>
      simp only [XNode.nodeName] at htag
      exact absurd htag (by decide)
  | elem tag attrs children =>
      have htag' : lowerStr tag = "div" := htag
      refine ⟨?_, rfl⟩
      simp [MdnDocsLoader.rewriteAnchors, MdnDocsLoader.removeDisallowed,
        allTagsAllowed, htag', MdnDocsLoader.allowedTags,
        allTagsAllowedIn_removeDisallowedIn]

/-- Witness for C4: the general allow-list invariant applied to the
fixture page. -/
theorem claim4_sanitize_allowlist_witness :
    allTagsAllowed
      (MdnDocsLoader.removeDisallowed
        (MdnDocsLoader.rewriteAnchors fixtureRegion)) = true ∧
    MdnDocsLoader.cleanDocumentation fixtureRegion =
      MdnDocsLoader.serializeNode
        (MdnDocsLoader.removeDisallowed
          (MdnDocsLoader.rewriteAnchors fixtureRegion)) :=
  claim4_sanitize_allowlist.1 fixtureDoc fixtureRegion rfl

/-- The anchor mutation stores the prefixed target under `href` (a missing
target reads as `null` and is rendered `"null"`). -/
theorem getAttr_rewriteHref (attrs : List (String × String)) :
    getAttr (MdnDocsLoader.rewriteHref attrs) "href" =
      some ("https://developer.mozilla.org" ++
        (getAttr attrs "href").getD "null") := by
  unfold MdnDocsLoader.rewriteHref
  rw [show ∀ l n, getAttr l n = l.lookup n from fun _ _ => rfl,
    lookup_setAssoc_self]
  cases h : getAttr attrs "href" with
  | none => rfl
  | some v => rfl

/-- Anchor-target collection commutes with the rewrite: every collected
target comes back host-prefixed. -/
theorem anchorHrefsIn_rewriteAnchorsIn :
    ∀ cs : XForest,
      anchorHrefsIn (MdnDocsLoader.rewriteAnchorsIn cs) =
        (anchorHrefsIn cs).map (fun h =>
          some ("https://developer.mozilla.org" ++ h.getD "null"))
  | .nil => rfl
  | .cons (.text s) cs => by
      simp [MdnDocsLoader.rewriteAnchorsIn, MdnDocsLoader.rewriteAnchorsUnder,
        anchorHrefsIn, anchorHrefsFrom, anchorHrefsIn_rewriteAnchorsIn cs]
  | .cons (.elem tag attrs children) cs => by
      by_cases h : tag == "a"
      · simp [MdnDocsLoader.rewriteAnchorsIn,
          MdnDocsLoader.rewriteAnchorsUnder, anchorHrefsIn, anchorHrefsFrom,
          h, getAttr_rewriteHref, anchorHrefsIn_rewriteAnchorsIn children,
          anchorHrefsIn_rewriteAnchorsIn cs]
      · simp [MdnDocsLoader.rewriteAnchorsIn,
          MdnDocsLoader.rewriteAnchorsUnder, anchorHrefsIn, anchorHrefsFrom,
          h, anchorHrefsIn_rewriteAnchorsIn children,
          anchorHrefsIn_rewriteAnchorsIn cs]

/-- C5 counterexample: an anchor whose target is already absolute is not
left unchanged — the sanitization step still prefixes the canonical host in
front of it. -/
theorem claim5_counterexample :
    anchorHrefs (MdnDocsLoader.rewriteAnchors absAnchorRegion) =
      [some "https://developer.mozilla.orghttps://example.com"] ∧
    anchorHrefs absAnchorRegion = [some "https://example.com"] ∧
    ("https://developer.mozilla.orghttps://example.com" : String) ≠
      "https://example.com" :=
  ⟨rfl, rfl, by decide⟩

/-- C5 (amended): during sanitization, every hyperlink target inside the
located content region is prefixed with `https://developer.mozilla.org`
unconditionally — relative and already-absolute targets alike (and an
anchor with no target gets the literal string `null` appended to the
host). -/
theorem claim5_amended_unconditional_prefix (region : XNode) :
    anchorHrefs (MdnDocsLoader.rewriteAnchors region) =
      (anchorHrefs region).map (fun h =>
        some ("https://developer.mozilla.org" ++ h.getD "null")) := by
  cases region with
  | text s => rfl
  | elem tag attrs children =>
      simpa [MdnDocsLoader.rewriteAnchors, anchorHrefs] using
        anchorHrefsIn_rewriteAnchorsIn children

/-- C6 counterexample: a page holding a `section` element but no
`section-content` `div` — the claim's fallback step (b) would locate the
`section`, yet the code returns `NotFound`. -/
theorem claim6_counterexample :
    MdnDocsLoader.extractDocumentation sectionOnlyDoc = none ∧
    sectionOnlyDoc.allElems.any (fun e => e.nodeName == "section") = true :=
  ⟨rfl, rfl⟩

/-- C6 (amended): the extraction step tries only step (a) — a `div`
carrying the `section-content` class; no structural `section`/`article`
fallback is attempted, the result is `NotFound` exactly when no such `div`
exists, and a located region is sanitized and returned. -/
theorem claim6_amended_no_fallback :
    (∀ doc, MdnDocsLoader.extractDocumentation doc = none ↔
      ∀ e ∈ doc.allElems,
        (e.matchesClass "section-content" &&
          (lowerStr e.nodeName == "div")) = false) ∧
    (∀ doc region,
      NodeManipulator.getFirstElementByClassAndTag doc "section-content"
        "div" = some region →
      MdnDocsLoader.extractDocumentation doc =
        some (MdnDocsLoader.cleanDocumentation region)) := by
  constructor
  · intro doc
    unfold MdnDocsLoader.extractDocumentation
    cases hf : NodeManipulator.getFirstElementByClassAndTag doc
        "section-content" "div" with
    | some r =>
        unfold NodeManipulator.getFirstElementByClassAndTag
          NodeManipulator.getElementsByClassName at hf
        have hq := List.find?_some hf
        have hdl : lowerStr "div" = "div" := rfl
        rw [hdl] at hq
        have hmem := List.mem_filter.mp (List.mem_of_find?_eq_some hf)
        apply iff_of_false
        · simp
        · intro hall
          have := hall r hmem.1
          rw [hmem.2] at this
          simp only [Bool.true_and] at this
          rw [this] at hq
          exact Bool.false_ne_true hq
    | none =>
        unfold NodeManipulator.getFirstElementByClassAndTag
          NodeManipulator.getElementsByClassName at hf
        rw [List.find?_eq_none] at hf
        apply iff_of_true rfl
        intro e he
        by_cases hp : e.matchesClass "section-content" = true
        · have hne := hf e (List.mem_filter.mpr ⟨he, hp⟩)
          simp only [Bool.not_eq_true] at hne
          have hdl : lowerStr "div" = "div" := rfl
          rw [hdl] at hne
          rw [hp, hne]
          rfl
        · simp only [Bool.not_eq_true] at hp
          rw [hp]
          rfl
  · intro doc region h
    unfold MdnDocsLoader.extractDocumentation
    rw [h]

/-- Witness for the amended C6: the search on the fixture page finds the
fixture region and extraction returns its sanitization. -/
theorem claim6_amended_no_fallback_witness :
    MdnDocsLoader.extractDocumentation fixtureDoc =
      some (MdnDocsLoader.cleanDocumentation fixtureRegion) :=
  claim6_amended_no_fallback.2 fixtureDoc fixtureRegion rfl

/-- C3: evaluation at the failing inputs.  A rejected network call makes
the producer resolve to `undefined` (not reject), and so does a 404
response; each fetch entry point thereupon reports `Absent` (`.ok none`)
instead of propagating a signaled failure, contrary to the claim and to the
method's own `@throws` documentation.  (The sanitization-`NotFound` half of
the claim does hold — it is the same `.ok none` path.) -/
theorem claim3_network_failure_swallowed :
    MdnDocsLoader.fetch (.error ()) = .ok none ∧
    MdnDocsLoader.fetch (.ok ⟨404, ⟨.nil⟩⟩) = .ok none ∧
    (MdnDocsLoader.fetchHtmlElement sampleBcd "en-US" "video" (.error ()) 0
      ⟨[], [], true⟩).result = .ok none ∧
    (MdnDocsLoader.fetchGlobalAttribute sampleBcd "en-US" "hidden"
      (.error ()) 0 ⟨[], [], true⟩).result = .ok none ∧
    (MdnDocsLoader.fetchElementAttribute sampleBcd "en-US" "src"
      (some "video") (.error ()) 0 ⟨[], [], true⟩).result = .ok none :=
  ⟨rfl, rfl, rfl, rfl, rfl⟩

/-- C8: per-browser summary derivation — of multiple support statements
only the first is used; an entry exists exactly when the JS-truthy choice
`version_added || version_removed` is a string, carrying that string as the
version and `isCurrentlySupported` iff a truthy `version_added` was
present; `versionAdded: true` for firefox omits the browser, and
`versionAdded: "32"` for chrome yields `{Chrome, "32", supported}`. -/
theorem claim8_summary_derivation :
    (∀ (b : String) (h : SimpleSupportStatement)
        (t : List SimpleSupportStatement),
      BrowserCompatDataLoader.parseSupportStatement b (.multiple h t) =
        BrowserCompatDataLoader.parseSimpleSupportStatement b h) ∧
    (∀ (b : String) (stm : SimpleSupportStatement)
        (s : BrowserCompatDataLoader.BrowserCompatSummary),
      BrowserCompatDataLoader.parseSimpleSupportStatement b stm = some s →
      (jsTruthy stm.version_added = true ∧
        stm.version_added = some (.vstr s.version) ∧ s.present = true) ∨
      (jsTruthy stm.version_added = false ∧
        stm.version_removed = some (.vstr s.version) ∧ s.present = false)) ∧
    (∀ (b : String) (stm : SimpleSupportStatement),
      (∀ v : String,
        jsOr stm.version_added stm.version_removed ≠ some (.vstr v)) →
      BrowserCompatDataLoader.parseSimpleSupportStatement b stm = none) ∧
    BrowserCompatDataLoader.parseCompat
      ⟨[("firefox", .single ⟨some (.vbool true), none⟩)]⟩ = [] ∧
    BrowserCompatDataLoader.parseCompat
      ⟨[("chrome", .single ⟨some (.vstr "32"), none⟩)]⟩ =
      [⟨"Chrome", "32", true⟩] := by
  refine ⟨fun b h t => rfl, ?_, ?_, rfl, rfl⟩
  · intro b stm s hs
    obtain ⟨a, r⟩ := stm
    by_cases ht : jsTruthy a = true
    · left
      unfold BrowserCompatDataLoader.parseSimpleSupportStatement jsOr at hs
      rw [if_pos ht] at hs
      cases a with
      | none => exact absurd ht (by simp [jsTruthy])
      | some vv =>
          cases vv with
          | vstr v =>
              simp only [Option.some.injEq] at hs
              refine ⟨ht, ?_, ?_⟩
              · rw [← hs]
              · rw [← hs]
                exact ht
          | vbool bb => simp at hs
    · right
      have ht' : jsTruthy a = false := by
        revert ht
        cases jsTruthy a <;> simp
      unfold BrowserCompatDataLoader.parseSimpleSupportStatement jsOr at hs
      rw [if_neg (by rw [ht']; exact Bool.false_ne_true)] at hs
      cases r with
      | none => simp at hs
      | some vv =>
          cases vv with
          | vstr v =>
              simp only [Option.some.injEq] at hs
              refine ⟨ht', ?_, ?_⟩
              · rw [← hs]
              · rw [← hs]
                exact ht'
          | vbool bb => simp at hs
  · intro b stm hno
    unfold BrowserCompatDataLoader.parseSimpleSupportStatement
    cases hj : jsOr stm.version_added stm.version_removed with
    | none => rfl
    | some vv =>
        cases vv with
        | vstr v => exact absurd hj (hno v)
        | vbool bb => rfl

/-- Witness for C8: the version-derivation rule applied to the chrome
example. -/
theorem claim8_summary_derivation_witness :
    (jsTruthy (some (VersionValue.vstr "32")) = true ∧
      some (VersionValue.vstr "32") = some (VersionValue.vstr "32") ∧
      true = true) ∨
    (jsTruthy (some (VersionValue.vstr "32")) = false ∧
      (none : Option VersionValue) = some (VersionValue.vstr "32") ∧
      true = false) :=
  claim8_summary_derivation.2.1 "chrome" ⟨some (.vstr "32"), none⟩
    ⟨"Chrome", "32", true⟩ rfl

/-- C9: evaluation at the failing input.  An element/global-attribute
lookup for an unknown entity returns `Absent` without an exception, and so
does an attribute lookup under a known element; but an element-attribute
lookup whose owning element is absent from the dataset throws a
`TypeError` (the optional chaining sits after the attribute access only),
contrary to the claim. -/
theorem claim9_unknown_element_attribute_throws :
    BrowserCompatDataLoader.getBrowserCompatDataForElementAttribute
      sampleBcd "blink" "id" = .error () ∧
    BrowserCompatDataLoader.getBrowserCompatDataForElement sampleBcd
      "blink" = none ∧
    BrowserCompatDataLoader.getBrowserCompatDataForGlobalAttribute sampleBcd
      "blink" = none ∧
    BrowserCompatDataLoader.getBrowserCompatDataForElementAttribute
      sampleBcd "video" "id" = .ok none :=
  ⟨rfl, rfl, rfl, rfl⟩

end MdnDocs
